import Mathlib

/-!
Verification of the hover-preview playlist page.

The page (src/pages/index.tsx) has two parts that the claims below are about:

* the `Track` component audio preview controller: `play` creates an
  `HTMLAudioElement` at volume 0 and an interval timer that ramps the volume
  up by 0.05 every 100ms (rounding to two decimals via `toFixed(2)`), and
  `stop` ramps it down the same way and schedules `audio.pause()` after
  `(volume / 0.05) * 100` milliseconds; the promise returned by
  `audio.play()` drives toast notifications and the global
  `interactableNotified` flag;
* the `Playlist` component aggregate computations over the fetched track
  list: total duration in hours, a per-artist tally (unique artist count and
  top five artists), and the full-stop normalisation of the description.

The embedding models volumes and timer delays as rationals (JavaScript
numbers restricted to the exact decimal grid this code operates on, with
`toFixed(2)` embedded as round-half-up to hundredths), timers as explicit
records with an id, a kind, a period and a time until the next firing, and
the relevant React component state (`audio`, `fadeIn`, `fadeOut`) as a
record of optional ids.  Timer callbacks capture the component state that
was current when the callback was created, exactly as a JavaScript closure
over a `useState` value does; the captured value is stored inside the
kind of the timer.  Promise callbacks are modelled separately as a pure handler
over the global flag (`Notify` namespace), with promises assumed to settle
in program order.  Strings are Lean strings; `String.prototype.includes`
and `String.prototype.endsWith` are embedded as executable functions over
the underlying character lists.
-/

set_option maxRecDepth 10000

namespace AudioFade

/-- `Number(x.toFixed(2))`: round to two decimal places (half up). -/
def round2 (q : ℚ) : ℚ := (⌊q * 100 + 1/2⌋ : ℚ) / 100

/-- `Number(x.toFixed(1))` as used for the duration stat is in the `Page`
namespace; here the fade-in interval body from `play`:
`if (volume < 1) volume = Number((volume + 0.05).toFixed(2))`. -/
def fadeInStep (v : ℚ) : ℚ := if v < 1 then round2 (v + 5/100) else v

/-- The fade-out interval body from `stop`:
`if (volume > 0) volume = Number((volume - 0.05).toFixed(2))`. -/
def fadeOutStep (v : ℚ) : ℚ := if 0 < v then round2 (v - 5/100) else v

/-- Volume of the fade-in audio element after `n` ticks of the 100ms
interval, starting from the initial volume 0 set by `play`. -/
def fadeInVol : Nat → ℚ
  | 0 => 0
  | n + 1 => fadeInStep (fadeInVol n)

/-- Volume after `n` ticks of the fade-out interval, starting from the
volume `v` the audio element had when `stop` ran. -/
def fadeOutVol (v : ℚ) : Nat → ℚ
  | 0 => v
  | n + 1 => fadeOutStep (fadeOutVol v n)

/-- An `HTMLAudioElement`: identity, current volume, and whether `play()`
has been called without a subsequent `pause()`. -/
structure AudioElem where
  aid : Nat
  volume : ℚ
  playing : Bool

/-- What a pending timer callback does when it fires.  The `captured`
field of the two interval kinds is the value of the `fadeIn`
(resp. `fadeOut`) state variable that the callback closed over when it was
created; `clearInterval` inside the callback receives this captured value. -/
inductive TimerKind where
  | fadeTickUp (aid : Nat) (captured : Option Nat)
  | fadeTickDown (aid : Nat) (captured : Option Nat)
  | pauseAudio (aid : Nat)

/-- A pending `setInterval`/`setTimeout` registration. -/
structure Timer where
  tid : Nat
  kind : TimerKind
  period : ℚ
  remaining : ℚ
  repeats : Bool

/-- The `useState` cells of the `Track` component: `audio`, `fadeIn`, `fadeOut`
(each `null` or a handle). -/
structure CompState where
  audioRef : Option Nat
  fadeInRef : Option Nat
  fadeOutRef : Option Nat

/-- The whole modelled world: component state, live audio elements,
pending timers, and a fresh-id counter. -/
structure Sys where
  comp : CompState
  audios : List AudioElem
  timers : List Timer
  fresh : Nat

def initSys : Sys := ⟨⟨none, none, none⟩, [], [], 0⟩

def getAudio (s : Sys) (aid : Nat) : Option AudioElem :=
  s.audios.find? (fun a => a.aid == aid)

def setVolume (s : Sys) (aid : Nat) (v : ℚ) : Sys :=
  { s with audios := s.audios.map (fun a => if a.aid = aid then { a with volume := v } else a) }

/-- `clearInterval(h)` / `clearTimeout(h)` for an optional handle (a no-op
when the handle is `null` or no longer registered). -/
def clearTimer (s : Sys) (h : Option Nat) : Sys :=
  match h with
  | none => s
  | some t => { s with timers := s.timers.filter (fun tm => tm.tid != t) }

/-- The `play` handler (src/pages/index.tsx lines 37-83): bail out when the
component already holds an audio element or the track has no preview URL;
otherwise create a new audio element at volume 0, start it (the promise
outcome is handled in the `Notify` namespace), and register the 100ms
fade-in interval.  The interval callback closes over the `fadeIn` state
variable of the render that called `play` - that is `s.comp.fadeInRef`,
not the id of the interval being created. -/
def play (previewUrl : String) (s : Sys) : Sys :=
  if s.comp.audioRef.isSome ∨ previewUrl = "" then s
  else
    { comp := { audioRef := some s.fresh, fadeInRef := some (s.fresh + 1),
                fadeOutRef := s.comp.fadeOutRef },
      audios := s.audios ++ [{ aid := s.fresh, volume := 0, playing := true }],
      timers := s.timers ++ [{ tid := s.fresh + 1,
                               kind := .fadeTickUp s.fresh s.comp.fadeInRef,
                               period := 100, remaining := 100, repeats := true }],
      fresh := s.fresh + 2 }

/-- The `stop` handler (src/pages/index.tsx lines 85-111): bail out when no
audio element is held; otherwise read `originalVolume`, set the `audio`
state to `null`, clear the current fade-in interval, register the 100ms
fade-out interval (whose callback closes over the old `fadeOut` state
value), and schedule `audio.pause()` after
`(originalVolume / 0.05) * 100` milliseconds. -/
def stop (s : Sys) : Sys :=
  match s.comp.audioRef with
  | none => s
  | some aid =>
    let originalVolume := ((getAudio s aid).map AudioElem.volume).getD 0
    let s1 : Sys := { s with comp := { s.comp with audioRef := none } }
    let s2 := clearTimer s1 s1.comp.fadeInRef
    { s2 with
      comp := { s2.comp with fadeOutRef := some s2.fresh },
      timers := s2.timers ++
        [{ tid := s2.fresh, kind := .fadeTickDown aid s.comp.fadeOutRef,
           period := 100, remaining := 100, repeats := true },
         { tid := s2.fresh + 1, kind := .pauseAudio aid,
           period := 0, remaining := originalVolume / (5/100) * 100, repeats := false }],
      fresh := s2.fresh + 2 }

/-- Run one timer callback.  The two interval kinds perform the volume
ramp step and otherwise pass their captured handle to `clearInterval`;
the timeout kind pauses the audio element. -/
def fireTimer (s : Sys) (tm : Timer) : Sys :=
  match tm.kind with
  | .fadeTickUp aid captured =>
    match getAudio s aid with
    | none => s
    | some a =>
      if a.volume < 1 then setVolume s aid (round2 (a.volume + 5/100))
      else clearTimer s captured
  | .fadeTickDown aid captured =>
    match getAudio s aid with
    | none => s
    | some a =>
      if 0 < a.volume then setVolume s aid (round2 (a.volume - 5/100))
      else clearTimer s captured
  | .pauseAudio aid =>
    { s with audios := s.audios.map (fun a => if a.aid = aid then { a with playing := false } else a) }

/-- Advance the timer with id `tid` by 100ms: fire it when due (resetting
an interval to its period, removing a one-shot timeout), otherwise just
decrease its remaining delay. -/
def tickTimer (s : Sys) (tid : Nat) : Sys :=
  match s.timers.find? (fun tm => tm.tid == tid) with
  | none => s
  | some tm =>
    if tm.remaining ≤ 100 then
      let s2 := fireTimer s tm
      if tm.repeats then
        { s2 with timers := s2.timers.map (fun t2 => if t2.tid = tid then { t2 with remaining := t2.period } else t2) }
      else
        { s2 with timers := s2.timers.filter (fun t2 => t2.tid != tid) }
    else
      { s with timers := s.timers.map (fun t2 => if t2.tid = tid then { t2 with remaining := t2.remaining - 100 } else t2) }

/-- Advance the whole system by 100ms: each timer registered at the start
of the tick is advanced once, in registration order. -/
def tick (s : Sys) : Sys :=
  (s.timers.map Timer.tid).foldl tickTimer s

/-- The system state during a first fade-in on a fresh component: one
audio element at volume `v`, and the fade-in interval whose callback
captured the `fadeIn` state value `null` of the render that ran `play`. -/
def fadeInState (v : ℚ) : Sys :=
  ⟨⟨some 0, some 1, none⟩, [⟨0, v, true⟩], [⟨1, .fadeTickUp 0 none, 100, 100, true⟩], 2⟩

end AudioFade

namespace Notify

/-- Outcome of the promise returned by `HTMLAudioElement.play()`. -/
inductive PlayResult where
  | success
  | rejected (message : String)
deriving DecidableEq

/-- The toasts the page can show. -/
inductive Toast where
  | plain (msg : String)
  | success (msg : String)
  | error (msg : String)
deriving DecidableEq, BEq

/-- `String.prototype.includes`. -/
def jsIncludes (s pat : String) : Bool :=
  s.data.tails.any (fun t => pat.data.isPrefixOf t)

def noInteractionPattern : String := "user didn\u0027t interact with the document first"

def pauseInterruptPattern : String := "interrupted by a call to pause()"

def instructionMsg : String := "Please click anywhere on the page to preview tracks on hover."

def congratsMsg : String := "Nice! You’re good to go."

/-- The global `interactableNotified` flag together with the per-component
`interactable` flag. -/
structure NotifyState where
  interactableNotified : Bool
  interactable : Bool
deriving DecidableEq

/-- The `.then`/`.catch` handlers attached to `newAudio.play()`
(src/pages/index.tsx lines 45-71), as a pure function from the state the
handler closure sees to the new state and the toasts shown. -/
def handlePlayResult (st : NotifyState) : PlayResult → NotifyState × List Toast
  | .success =>
    if st.interactableNotified then
      ({ interactableNotified := false, interactable := true }, [.success congratsMsg])
    else
      ({ st with interactable := true }, [])
  | .rejected message =>
    if jsIncludes message noInteractionPattern then
      if !st.interactableNotified then
        ({ st with interactableNotified := true }, [.plain instructionMsg])
      else (st, [])
    else if !(jsIncludes message pauseInterruptPattern) then
      (st, [.error message])
    else (st, [])

/-- Settle a sequence of play outcomes in program order, accumulating the
toasts shown. -/
def runResults (st : NotifyState) : List PlayResult → NotifyState × List Toast
  | [] => (st, [])
  | r :: rs =>
    let step := handlePlayResult st r
    let rest := runResults step.1 rs
    (rest.1, step.2 ++ rest.2)

/-- Number of instruction toasts in a toast list. -/
def countInstr (ts : List Toast) : Nat :=
  (ts.filter (fun t => t = Toast.plain instructionMsg)).length

end Notify

namespace Page

structure Artist where
  name : String
deriving DecidableEq

structure AlbumInfo where
  name : String
deriving DecidableEq

/-- The fields of a Spotify track object the page reads. -/
structure TrackInfo where
  name : String
  duration_ms : Nat
  artists : List Artist
  album : AlbumInfo
  preview_url : String
deriving DecidableEq

/-- A playlist item: the page always goes through `.track`. -/
structure SpotifyTrack where
  track : TrackInfo
deriving DecidableEq

structure TracksMeta where
  total : Nat
deriving DecidableEq

/-- The fields of the playlist object the page reads. -/
structure SpotifyPlaylist where
  name : String
  description : String
  tracks : TracksMeta
deriving DecidableEq

/-- `Number(x.toFixed(1))` rendered: one decimal digit, round half up. -/
def toFixed1 (q : ℚ) : String :=
  toString (⌊q * 10 + 1/2⌋ / 10) ++ "." ++ toString (⌊q * 10 + 1/2⌋ % 10)

/-- The `duration` constant of `Playlist`:
`(tracks.reduce((acc, track) => acc + track.track.duration_ms, 0) / 3600000).toFixed(1)`. -/
def duration (tracks : List SpotifyTrack) : String :=
  toFixed1 ((tracks.foldl (fun acc track => acc + track.track.duration_ms) 0 : ℚ) / 3600000)

/-- The first entry of the stats line: `` `${duration} hours` ``. -/
def durationStat (tracks : List SpotifyTrack) : String :=
  duration tracks ++ " hours"

/-- `artists.find(({ name }) => name === artist.name)` followed by
`existing.count += 1`: bump the count of the first entry with this name. -/
def incFirst : List (String × Nat) → String → List (String × Nat)
  | [], _ => []
  | e :: rest, n => if e.1 = n then (e.1, e.2 + 1) :: rest else e :: incFirst rest n

/-- One iteration of the artist tally loop: increment an existing entry,
else push `{ name, count: 1 }` when the name is truthy (non-empty). -/
def addArtist (acc : List (String × Nat)) (a : Artist) : List (String × Nat) :=
  if acc.any (fun e => e.1 == a.name) then incFirst acc a.name
  else if a.name ≠ "" then acc ++ [(a.name, 1)] else acc

/-- The `artists` array of `Playlist` after the two nested `forEach`
loops over `tracks` and `track.track.artists`. -/
def artistsTally (tracks : List SpotifyTrack) : List (String × Nat) :=
  tracks.foldl (fun acc track => track.track.artists.foldl addArtist acc) []

/-- `new Set(artists.map((artist) => artist.name)).size`. -/
def uniqueArtists (tracks : List SpotifyTrack) : Nat :=
  (((artistsTally tracks).map Prod.fst).dedup).length

/-- The sort comparator `(artist1, artist2) => (artist2.count > artist1.count ? 1 : -1)`
keeps `artist1` before `artist2` exactly when it returns a value `≤ 0`,
i.e. when `artist2.count ≤ artist1.count`. -/
def byCountDesc (a1 a2 : String × Nat) : Prop := a2.2 ≤ a1.2

instance : DecidableRel byCountDesc := fun a1 a2 => Nat.decLe a2.2 a1.2

instance : IsTotal (String × Nat) byCountDesc :=
  ⟨fun a b => le_total b.2 a.2⟩

instance : IsTrans (String × Nat) byCountDesc :=
  ⟨fun _ _ _ h1 h2 => le_trans h2 h1⟩

/-- `artists.sort(comparator).slice(0, 5).map((artist) => artist.name)`,
with `Array.prototype.sort` embedded as a comparison sort that orders by
the comparator. -/
def topArtists (tracks : List SpotifyTrack) : List String :=
  ((List.insertionSort byCountDesc (artistsTally tracks)).take 5).map Prod.fst

/-- `String.prototype.endsWith`, executable over character lists. -/
def jsEndsWith (s suffix : String) : Bool :=
  suffix.data.isSuffixOf s.data

/-- The `description` constant of `Playlist`: append a full stop unless
the playlist description already ends with one. -/
def description (data : SpotifyPlaylist) : String :=
  if jsEndsWith data.description "." then data.description else data.description ++ "."

/-- The second entry of the stats line: `` `${data.tracks.total} tracks` ``. -/
def trackCountStat (data : SpotifyPlaylist) : String :=
  toString data.tracks.total ++ " tracks"

/-- The third entry of the stats line: `` `${uniqueArtists.size} artists` ``. -/
def artistCountStat (tracks : List SpotifyTrack) : String :=
  toString (uniqueArtists tracks) ++ " artists"

/-- The stats paragraph: the three stats joined with a middle dot. -/
def statsLine (data : SpotifyPlaylist) (tracks : List SpotifyTrack) : String :=
  String.intercalate " · " [durationStat tracks, trackCountStat data, artistCountStat tracks]

/-- `tracks.map(Track)`: one rendered row per element of the `tracks`
prop (each row shows the track name). -/
def trackRows (tracks : List SpotifyTrack) : List String :=
  tracks.map (fun t => t.track.name)

/-- Specification-side helpers (from the wording of the claims, not from the
code): every artist object occurring across the artist lists of all
tracks. -/
def allArtists (tracks : List SpotifyTrack) : List Artist :=
  (tracks.map (fun t => t.track.artists)).flatten

def allArtistNames (tracks : List SpotifyTrack) : List String :=
  (allArtists tracks).map Artist.name

/-- Number of (track, artist) occurrences of the name `n`. -/
def appearances (tracks : List SpotifyTrack) (n : String) : Nat :=
  (allArtistNames tracks).count n

/-- Keys of a tally list. -/
def keys (l : List (String × Nat)) : List String := l.map Prod.fst

/-- Total count recorded for name `n` in a tally list. -/
def countIn (l : List (String × Nat)) (n : String) : Nat :=
  ((l.filter (fun p => p.1 == n)).map Prod.snd).sum

/-- A track with a single artist whose name is the empty string, plus a
helper constructor. -/
def mkTrack (artistNames : List String) : SpotifyTrack :=
  ⟨⟨"t", 1000, artistNames.map Artist.mk, ⟨"al"⟩, "u"⟩⟩

/-- Concrete input for the unique-artist claim: one track whose only
artist has the empty name. -/
def cexTracks6 : List SpotifyTrack := [mkTrack [""]]

/-- Concrete input for the top-artists claim: the empty name appears
twice, the name `A` once. -/
def cexTracks7 : List SpotifyTrack := [mkTrack [""], mkTrack [""], mkTrack ["A"]]

/-- Concrete input for the track-count claim: the playlist object reports
3 tracks while the fetched track array has a single element. -/
def cexData8 : SpotifyPlaylist := ⟨"p", "d", ⟨3⟩⟩

def cexTracks8 : List SpotifyTrack := [mkTrack ["A"]]

/-- Concrete input for the top-artists witness: six distinct non-empty
artist names on one track, so one of them falls out of the top five. -/
def witTracks7 : List SpotifyTrack := [mkTrack ["A", "B", "C", "D", "E", "F"]]

end Page

namespace AudioFade

theorem round2_int_div100 (m : ℤ) : round2 ((m : ℚ) / 100) = (m : ℚ) / 100 := by
  unfold round2
  have h1 : ((m : ℚ) / 100) * 100 + 1/2 = 1/2 + (m : ℚ) := by
    field_simp
    ring
  rw [h1, Int.floor_add_int]
  norm_num

theorem round2_nat_div20 (k : ℕ) : round2 ((k : ℚ) / 20) = (k : ℚ) / 20 := by
  have h : ((k : ℚ)) / 20 = ((5 * k : ℤ) : ℚ) / 100 := by
    push_cast
    ring
  rw [h, round2_int_div100]

theorem div20_add_step (k : ℕ) : (k : ℚ) / 20 + 5/100 = ((k + 1 : ℕ) : ℚ) / 20 := by
  push_cast
  ring

theorem div20_sub_step (k : ℕ) : ((k + 1 : ℕ) : ℚ) / 20 - 5/100 = (k : ℚ) / 20 := by
  push_cast
  ring

theorem div20_lt_one {k : ℕ} (h : k < 20) : (k : ℚ) / 20 < 1 := by
  rw [div_lt_one (by norm_num)]
  exact_mod_cast h

theorem fadeInVol_of_le {n : ℕ} (h : n ≤ 20) : fadeInVol n = (n : ℚ) / 20 := by
  induction n with
  | zero => simp [fadeInVol]
  | succ m ih =>
    have hm : m ≤ 20 := Nat.le_of_succ_le h
    have hmlt : m < 20 := Nat.lt_of_succ_le h
    rw [fadeInVol, ih hm, fadeInStep, if_pos (div20_lt_one hmlt), div20_add_step,
      round2_nat_div20]

theorem fadeInVol_of_ge {n : ℕ} (h : 20 ≤ n) : fadeInVol n = 1 := by
  induction n with
  | zero => omega
  | succ m ih =>
    rcases Nat.lt_or_ge m 20 with hlt | hge
    · have hm : m = 19 := by omega
      subst hm
      rw [fadeInVol, fadeInVol_of_le (by norm_num), fadeInStep,
        if_pos (div20_lt_one (by norm_num)), div20_add_step, round2_nat_div20 20]
      norm_num
    · rw [fadeInVol, ih hge, fadeInStep, if_neg (by norm_num)]

theorem fadeInVol_le_one (n : ℕ) : fadeInVol n ≤ 1 := by
  rcases le_or_lt n 20 with h | h
  · rw [fadeInVol_of_le h]
    rw [div_le_one (by norm_num)]
    exact_mod_cast h
  · rw [fadeInVol_of_ge (Nat.le_of_lt h)]

theorem fadeInVol_lt_iff (n : ℕ) : fadeInVol n < 1 ↔ n < 20 := by
  constructor
  · intro h
    by_contra hn
    rw [fadeInVol_of_ge (Nat.le_of_not_lt hn)] at h
    exact lt_irrefl 1 h
  · intro h
    rw [fadeInVol_of_le (Nat.le_of_lt h)]
    exact div20_lt_one h

theorem fadeInVol_strict_mono {n : ℕ} (h : fadeInVol n < 1) :
    fadeInVol n < fadeInVol (n + 1) := by
  have hn : n < 20 := (fadeInVol_lt_iff n).mp h
  rw [fadeInVol_of_le (Nat.le_of_lt hn), fadeInVol_of_le hn]
  rw [div_lt_div_iff_of_pos_right (by norm_num)]
  exact_mod_cast Nat.lt_succ_self n

theorem fadeInVol_grid (n : ℕ) : ∃ k : ℕ, k ≤ 20 ∧ fadeInVol n = (k : ℚ) * (5/100) := by
  rcases le_or_lt n 20 with h | h
  · exact ⟨n, h, by rw [fadeInVol_of_le h]; ring⟩
  · exact ⟨20, le_refl 20, by rw [fadeInVol_of_ge (Nat.le_of_lt h)]; norm_num⟩

theorem fadeOutStep_succ (m : ℕ) : fadeOutStep (((m + 1 : ℕ) : ℚ) / 20) = (m : ℚ) / 20 := by
  rw [fadeOutStep, if_pos (by positivity), div20_sub_step, round2_nat_div20]

theorem fadeOutVol_eq {k j : ℕ} (h : j ≤ k) :
    fadeOutVol ((k : ℚ) / 20) j = ((k - j : ℕ) : ℚ) / 20 := by
  induction j with
  | zero => simp [fadeOutVol]
  | succ m ih =>
    have hm : m ≤ k := Nat.le_of_succ_le h
    have hy : k - m = (k - (m + 1)) + 1 := by omega
    rw [fadeOutVol, ih hm, hy, fadeOutStep_succ]

theorem fadeOutVol_pos {k j : ℕ} (h : j < k) : 0 < fadeOutVol ((k : ℚ) / 20) j := by
  rw [fadeOutVol_eq (Nat.le_of_lt h)]
  have : 0 < k - j := by omega
  positivity

theorem fadeOutVol_zero (k : ℕ) : fadeOutVol ((k : ℚ) / 20) k = 0 := by
  rw [fadeOutVol_eq (le_refl k)]
  simp

theorem pause_delay_eq_ticks (k : ℕ) : ((k : ℚ) / 20) / (5/100) * 100 = (k : ℚ) * 100 := by
  congr 1
  rw [div_eq_iff (by norm_num : ((5 : ℚ)/100) ≠ 0)]
  ring

theorem play_spec (s : Sys) (url : String)
    (h1 : s.comp.audioRef = none) (h2 : url ≠ "") :
    play url s =
      { comp := { audioRef := some s.fresh, fadeInRef := some (s.fresh + 1),
                  fadeOutRef := s.comp.fadeOutRef },
        audios := s.audios ++ [{ aid := s.fresh, volume := 0, playing := true }],
        timers := s.timers ++ [{ tid := s.fresh + 1,
                                 kind := .fadeTickUp s.fresh s.comp.fadeInRef,
                                 period := 100, remaining := 100, repeats := true }],
        fresh := s.fresh + 2 } := by
  simp [play, h1, h2]

theorem stop_spec (s : Sys) (aid : Nat) (a : AudioElem)
    (h1 : s.comp.audioRef = some aid) (h2 : getAudio s aid = some a) :
    ∃ tms : List Timer,
      stop s =
        { comp := ⟨none, s.comp.fadeInRef, some s.fresh⟩,
          audios := s.audios,
          timers := tms ++
            [⟨s.fresh, .fadeTickDown aid s.comp.fadeOutRef, 100, 100, true⟩,
             ⟨s.fresh + 1, .pauseAudio aid, 0, a.volume / (5/100) * 100, false⟩],
          fresh := s.fresh + 2 } := by
  cases href : s.comp.fadeInRef with
  | none =>
    refine ⟨s.timers, ?_⟩
    simp [stop, h1, h2, clearTimer, href]
  | some h =>
    refine ⟨s.timers.filter (fun tm => tm.tid != h), ?_⟩
    simp [stop, h1, h2, clearTimer, href]

theorem tick_fadeInState (v : ℚ) : tick (fadeInState v) = fadeInState (fadeInStep v) := by
  by_cases h : v < 1 <;>
    simp [tick, fadeInState, tickTimer, fireTimer, getAudio, setVolume, clearTimer,
      fadeInStep, List.find?, List.foldl, h]

theorem tickN_fadeInState (n : ℕ) : tick^[n] (fadeInState 0) = fadeInState (fadeInVol n) := by
  induction n with
  | zero => rfl
  | succ m ih =>
    rw [Function.iterate_succ_apply', ih, tick_fadeInState]
    rfl

theorem play_initSys : play "u" initSys = fadeInState 0 := by
  simp [play, initSys, fadeInState]

end AudioFade

namespace AudioFade

theorem fadeInStep_zero : fadeInStep 0 = 1/20 := by
  rw [fadeInStep, if_pos (by norm_num)]
  norm_num [round2]

theorem fadeInStep_one20 : fadeInStep (1/20) = 1/10 := by
  rw [fadeInStep, if_pos (by norm_num)]
  norm_num [round2]

/-- Claim C1: for every track whose preview URL is non-empty and whose
component holds no audio element, `play` creates an audio element with
volume 0 and a 100ms interval timer whose body adds 0.05 to the volume
and rounds to two decimals while the volume is below 1; the resulting
volume sequence is always a multiple of 0.05, strictly increases tick by
tick while below 1, reaches exactly 1 after 20 ticks, and never
exceeds 1. -/
theorem C1_fadeIn_ramp :
    (∀ (s : Sys) (url : String), s.comp.audioRef = none → url ≠ "" →
      play url s =
        { comp := { audioRef := some s.fresh, fadeInRef := some (s.fresh + 1),
                    fadeOutRef := s.comp.fadeOutRef },
          audios := s.audios ++ [{ aid := s.fresh, volume := 0, playing := true }],
          timers := s.timers ++ [{ tid := s.fresh + 1,
                                   kind := .fadeTickUp s.fresh s.comp.fadeInRef,
                                   period := 100, remaining := 100, repeats := true }],
          fresh := s.fresh + 2 }) ∧
    (∀ n : ℕ, (getAudio (tick^[n] (play "u" initSys)) 0).map AudioElem.volume
        = some (fadeInVol n)) ∧
    (∀ n : ℕ, ∃ k : ℕ, k ≤ 20 ∧ fadeInVol n = (k : ℚ) * (5/100)) ∧
    (∀ n : ℕ, fadeInVol n < 1 → fadeInVol n < fadeInVol (n + 1)) ∧
    fadeInVol 20 = 1 ∧
    (∀ n : ℕ, fadeInVol n ≤ 1) := by
  refine ⟨play_spec, ?_, fadeInVol_grid, fun n h => fadeInVol_strict_mono h, ?_, fadeInVol_le_one⟩
  · intro n
    rw [play_initSys, tickN_fadeInState]
    simp [getAudio, fadeInState, List.find?]
  · rw [fadeInVol_of_le (le_refl 20)]
    norm_num

theorem C1_fadeIn_ramp_witness :
    play "u" initSys =
      { comp := { audioRef := some 0, fadeInRef := some 1, fadeOutRef := none },
        audios := [{ aid := 0, volume := 0, playing := true }],
        timers := [{ tid := 1, kind := .fadeTickUp 0 none,
                     period := 100, remaining := 100, repeats := true }],
        fresh := 2 } ∧
    fadeInVol 0 < fadeInVol 1 := by
  constructor
  · have h := C1_fadeIn_ramp.1 initSys "u" rfl (by simp)
    simpa [initSys] using h
  · exact C1_fadeIn_ramp.2.2.2.1 0 (by simp [fadeInVol])

/-- Claim C2 (refuted by the code): the claim says the interval started by
`play` is cancelled once the volume has reached 1 because the handle
passed to `clearInterval` inside the callback is the handle of that same
timer.  In the code the callback closes over the `fadeIn` state value of
the render that ran `play` - `null` on a first hover - so the handle it
passes to `clearInterval` is never its own: the fade-in interval stays
registered after every tick, in particular after the volume has
reached 1 (20 ticks). -/
theorem C2_fadeIn_timer_never_cancelled :
    (play "u" initSys).timers =
      [⟨1, .fadeTickUp 0 none, 100, 100, true⟩] ∧
    (∀ n : ℕ, (tick^[n] (play "u" initSys)).timers =
      [⟨1, .fadeTickUp 0 none, 100, 100, true⟩]) ∧
    (getAudio (tick^[20] (play "u" initSys)) 0).map AudioElem.volume = some 1 := by
  have h20 : fadeInVol 20 = 1 := by
    rw [fadeInVol_of_le (le_refl 20)]
    norm_num
  refine ⟨?_, ?_, ?_⟩
  · rw [play_initSys]
    rfl
  · intro n
    rw [play_initSys, tickN_fadeInState]
    rfl
  · rw [play_initSys, tickN_fadeInState]
    simp [getAudio, fadeInState, List.find?, h20]

/-- Claim C3: for a component state holding an audio element at volume
`v`, `stop` registers a 100ms fade-out interval (body: subtract 0.05 and
round to two decimals while the volume is above 0) and schedules
`audio.pause()` after `(v / 0.05) * 100` milliseconds; for `v = k/20`
(the 0.05-grid the fade ramps produce) that delay is `k * 100`
milliseconds, and `k` 100ms ticks are exactly what the fade-out ramp
needs to reach volume 0 from `v`: the volume is positive for the first
`k - 1` ticks and 0 after the `k`-th. -/
theorem C3_stop_fadeOut_timing :
    (∀ (s : Sys) (aid : Nat) (a : AudioElem),
      s.comp.audioRef = some aid → getAudio s aid = some a →
      ∃ tms : List Timer,
        stop s =
          { comp := ⟨none, s.comp.fadeInRef, some s.fresh⟩,
            audios := s.audios,
            timers := tms ++
              [⟨s.fresh, .fadeTickDown aid s.comp.fadeOutRef, 100, 100, true⟩,
               ⟨s.fresh + 1, .pauseAudio aid, 0, a.volume / (5/100) * 100, false⟩],
            fresh := s.fresh + 2 }) ∧
    (∀ k : ℕ, ((k : ℚ) / 20) / (5/100) * 100 = (k : ℚ) * 100) ∧
    (∀ k j : ℕ, j ≤ k → fadeOutVol ((k : ℚ) / 20) j = ((k - j : ℕ) : ℚ) / 20) ∧
    (∀ k j : ℕ, j < k → 0 < fadeOutVol ((k : ℚ) / 20) j) ∧
    (∀ k : ℕ, fadeOutVol ((k : ℚ) / 20) k = 0) :=
  ⟨stop_spec, pause_delay_eq_ticks, fun _ _ h => fadeOutVol_eq h,
   fun _ _ h => fadeOutVol_pos h, fadeOutVol_zero⟩

theorem C3_stop_fadeOut_timing_witness :
    (∃ tms : List Timer,
      stop (fadeInState (1/10)) =
        { comp := ⟨none, some 1, some 2⟩,
          audios := [⟨0, 1/10, true⟩],
          timers := tms ++
            [⟨2, .fadeTickDown 0 none, 100, 100, true⟩,
             ⟨3, .pauseAudio 0, 0, (1/10 : ℚ) / (5/100) * 100, false⟩],
          fresh := 4 }) ∧
    fadeOutVol (((2 : ℕ) : ℚ) / 20) 1 = ((1 : ℕ) : ℚ) / 20 := by
  constructor
  · have h := C3_stop_fadeOut_timing.1 (fadeInState (1/10)) 0 ⟨0, 1/10, true⟩ rfl
      (by simp [getAudio, fadeInState, List.find?])
    simpa [fadeInState] using h
  · exact C3_stop_fadeOut_timing.2.2.1 2 1 (by norm_num)

/-- Claim C10: `stop` nulls the audio reference of the component immediately,
before the fade-out and the delayed pause finish; hovering again during
the fade-out therefore passes the `play` guard and starts a second audio
element while the first is still playing, reaching a state with two
simultaneously audible (playing, positive-volume) audio elements. -/
theorem C10_rehover_during_fadeout :
    (stop (tick (tick (play "u" initSys)))).comp.audioRef = none ∧
    (∃ a : AudioElem,
       getAudio (stop (tick (tick (play "u" initSys)))) 0 = some a ∧
       a.playing = true ∧ 0 < a.volume) ∧
    (∃ a b : AudioElem,
       (tick (play "u" (stop (tick (tick (play "u" initSys)))))).audios = [a, b] ∧
       a.aid ≠ b.aid ∧ a.playing = true ∧ 0 < a.volume ∧
       b.playing = true ∧ 0 < b.volume) := by
  have h1 : tick (tick (play "u" initSys)) = fadeInState (1/10) := by
    rw [play_initSys, tick_fadeInState, tick_fadeInState, fadeInStep_zero, fadeInStep_one20]
  have h3 : stop (fadeInState (1/10)) =
      ⟨⟨none, some 1, some 2⟩, [⟨0, 1/10, true⟩],
       [⟨2, .fadeTickDown 0 none, 100, 100, true⟩, ⟨3, .pauseAudio 0, 0, 200, false⟩], 4⟩ := by
    norm_num [stop, fadeInState, getAudio, clearTimer, List.find?, List.filter]
  have h4 : play "u" (⟨⟨none, some 1, some 2⟩, [⟨0, 1/10, true⟩],
       [⟨2, .fadeTickDown 0 none, 100, 100, true⟩, ⟨3, .pauseAudio 0, 0, 200, false⟩], 4⟩ : Sys) =
      ⟨⟨some 4, some 5, some 2⟩, [⟨0, 1/10, true⟩, ⟨4, 0, true⟩],
       [⟨2, .fadeTickDown 0 none, 100, 100, true⟩, ⟨3, .pauseAudio 0, 0, 200, false⟩,
        ⟨5, .fadeTickUp 4 (some 1), 100, 100, true⟩], 6⟩ := by
    simp [play]
  have h5 : tick (⟨⟨some 4, some 5, some 2⟩, [⟨0, 1/10, true⟩, ⟨4, 0, true⟩],
       [⟨2, .fadeTickDown 0 none, 100, 100, true⟩, ⟨3, .pauseAudio 0, 0, 200, false⟩,
        ⟨5, .fadeTickUp 4 (some 1), 100, 100, true⟩], 6⟩ : Sys) =
      ⟨⟨some 4, some 5, some 2⟩, [⟨0, 1/20, true⟩, ⟨4, 1/20, true⟩],
       [⟨2, .fadeTickDown 0 none, 100, 100, true⟩, ⟨3, .pauseAudio 0, 0, 100, false⟩,
        ⟨5, .fadeTickUp 4 (some 1), 100, 100, true⟩], 6⟩ := by
    simp [tick, tickTimer, fireTimer, getAudio, setVolume, clearTimer,
      List.find?, List.foldl,
      (show ¬((200 : ℚ) ≤ 100) by norm_num),
      (show ((1 : ℚ)/10) < 1 by norm_num),
      (show (0 : ℚ) < 1/10 by norm_num),
      (show ((200 : ℚ) - 100) = 100 by norm_num)]
    norm_num [round2]
  rw [h1, h3]
  refine ⟨rfl, ⟨⟨0, 1/10, true⟩, by simp [getAudio, List.find?], rfl, by norm_num⟩, ?_⟩
  rw [h4, h5]
  exact ⟨⟨0, 1/20, true⟩, ⟨4, 1/20, true⟩, rfl, by decide, rfl, by norm_num, rfl, by norm_num⟩

end AudioFade

namespace Notify

theorem countInstr_nil : countInstr [] = 0 := rfl

theorem countInstr_cons_error (m : String) (ts : List Toast) :
    countInstr (Toast.error m :: ts) = countInstr ts := by
  simp [countInstr]

theorem countInstr_cons_instr (ts : List Toast) :
    countInstr (Toast.plain instructionMsg :: ts) = countInstr ts + 1 := by
  simp [countInstr]

theorem no_instr_of_notified (rs : List PlayResult) :
    ∀ st : NotifyState, (∀ r ∈ rs, r ≠ PlayResult.success) →
    st.interactableNotified = true → countInstr (runResults st rs).2 = 0 := by
  induction rs with
  | nil =>
    intro st _ _
    simp [runResults, countInstr]
  | cons r rs ih =>
    intro st hno hst
    cases r with
    | success => exact absurd rfl (hno _ (List.mem_cons_self _ _))
    | rejected m =>
      have hno2 : ∀ x ∈ rs, x ≠ PlayResult.success := fun x hx => hno x (List.mem_cons_of_mem _ hx)
      by_cases hinc : jsIncludes m noInteractionPattern
      · have hh : handlePlayResult st (.rejected m) = (st, []) := by
          simp [handlePlayResult, hinc, hst]
        simp only [runResults, hh, List.nil_append]
        exact ih _ hno2 hst
      · by_cases hp : jsIncludes m pauseInterruptPattern
        · have hh : handlePlayResult st (.rejected m) = (st, []) := by
            simp [handlePlayResult, hinc, hp]
          simp only [runResults, hh, List.nil_append]
          exact ih _ hno2 hst
        · have hh : handlePlayResult st (.rejected m) = (st, [.error m]) := by
            simp [handlePlayResult, hinc, hp]
          simp only [runResults, hh, List.cons_append, List.nil_append, countInstr_cons_error]
          exact ih _ hno2 hst

theorem instr_at_most_once (rs : List PlayResult) :
    ∀ b : Bool, (∀ r ∈ rs, r ≠ PlayResult.success) →
    countInstr (runResults ⟨false, b⟩ rs).2 ≤ 1 := by
  induction rs with
  | nil =>
    intro b _
    simp [runResults, countInstr]
  | cons r rs ih =>
    intro b hno
    cases r with
    | success => exact absurd rfl (hno _ (List.mem_cons_self _ _))
    | rejected m =>
      have hno2 : ∀ x ∈ rs, x ≠ PlayResult.success := fun x hx => hno x (List.mem_cons_of_mem _ hx)
      by_cases hinc : jsIncludes m noInteractionPattern
      · have h0 := no_instr_of_notified rs ⟨true, b⟩ hno2 rfl
        have hh : handlePlayResult ⟨false, b⟩ (.rejected m) =
            (⟨true, b⟩, [.plain instructionMsg]) := by
          simp [handlePlayResult, hinc]
        simp only [runResults, hh, List.cons_append, List.nil_append, countInstr_cons_instr, h0]
        omega
      · by_cases hp : jsIncludes m pauseInterruptPattern
        · have hh : handlePlayResult ⟨false, b⟩ (.rejected m) = (⟨false, b⟩, []) := by
            simp [handlePlayResult, hinc, hp]
          simp only [runResults, hh, List.nil_append]
          exact ih b hno2
        · have hh : handlePlayResult ⟨false, b⟩ (.rejected m) =
              (⟨false, b⟩, [.error m]) := by
            simp [handlePlayResult, hinc, hp]
          simp only [runResults, hh, List.cons_append, List.nil_append, countInstr_cons_error]
          exact ih b hno2

/-- Claim C4: a rejection of `audio.play()` whose message contains the
browser autoplay-policy text shows the instruction toast only when the
global `interactableNotified` flag is unset and then sets the flag; with
the flag set it shows nothing, so in any run of rejections (no successful
play) the instruction toast is shown at most once across all tracks; a
successful play with the flag set shows the success toast and clears the
flag (and only sets the per-component `interactable` flag otherwise); a
rejection mentioning an interruption by `pause()` shows nothing; every
other rejection shows exactly an error toast carrying the message and
changes no state. -/
theorem C4_playback_failure_handling :
    (∀ (st : NotifyState) (m : String),
      jsIncludes m noInteractionPattern = true → st.interactableNotified = false →
      handlePlayResult st (.rejected m) =
        ({ st with interactableNotified := true }, [.plain instructionMsg])) ∧
    (∀ (st : NotifyState) (m : String),
      jsIncludes m noInteractionPattern = true → st.interactableNotified = true →
      handlePlayResult st (.rejected m) = (st, [])) ∧
    (∀ (st : NotifyState) (m : String),
      jsIncludes m noInteractionPattern = false →
      jsIncludes m pauseInterruptPattern = true →
      handlePlayResult st (.rejected m) = (st, [])) ∧
    (∀ (st : NotifyState) (m : String),
      jsIncludes m noInteractionPattern = false →
      jsIncludes m pauseInterruptPattern = false →
      handlePlayResult st (.rejected m) = (st, [.error m])) ∧
    (∀ st : NotifyState, st.interactableNotified = true →
      handlePlayResult st .success = (⟨false, true⟩, [.success congratsMsg])) ∧
    (∀ st : NotifyState, st.interactableNotified = false →
      handlePlayResult st .success = ({ st with interactable := true }, [])) ∧
    (∀ (rs : List PlayResult) (b : Bool), (∀ r ∈ rs, r ≠ .success) →
      countInstr (runResults ⟨false, b⟩ rs).2 ≤ 1) := by
  refine ⟨?_, ?_, ?_, ?_, ?_, ?_, fun rs b h => instr_at_most_once rs b h⟩
  · intro st m h1 h2
    simp [handlePlayResult, h1, h2]
  · intro st m h1 h2
    simp [handlePlayResult, h1, h2]
  · intro st m h1 h2
    simp [handlePlayResult, h1, h2]
  · intro st m h1 h2
    simp [handlePlayResult, h1, h2]
  · intro st h
    simp [handlePlayResult, h]
  · intro st h
    simp [handlePlayResult, h]

theorem C4_playback_failure_handling_witness :
    handlePlayResult ⟨false, false⟩
        (.rejected "NotAllowedError: play() failed because the user didn't interact with the document first.") =
      (⟨true, false⟩, [.plain instructionMsg]) ∧
    handlePlayResult ⟨true, false⟩
        (.rejected "AbortError: The play() request was interrupted by a call to pause().") =
      (⟨true, false⟩, []) ∧
    handlePlayResult ⟨false, false⟩ (.rejected "boom") = (⟨false, false⟩, [.error "boom"]) ∧
    handlePlayResult ⟨true, false⟩ .success = (⟨false, true⟩, [.success congratsMsg]) ∧
    countInstr (runResults ⟨false, false⟩ [.rejected "a", .rejected "b"]).2 ≤ 1 := by
  refine ⟨?_, ?_, ?_, ?_, ?_⟩
  · exact C4_playback_failure_handling.1 ⟨false, false⟩ _ (by decide) rfl
  · exact C4_playback_failure_handling.2.2.1 ⟨true, false⟩ _ (by decide) (by decide)
  · exact C4_playback_failure_handling.2.2.2.1 ⟨false, false⟩ _ (by decide) (by decide)
  · exact C4_playback_failure_handling.2.2.2.2.1 ⟨true, false⟩ rfl
  · exact C4_playback_failure_handling.2.2.2.2.2.2 _ false (by decide)

end Notify

namespace Page

theorem foldl_duration (tracks : List SpotifyTrack) (q : ℚ) :
    tracks.foldl (fun acc track => acc + (track.track.duration_ms : ℚ)) q
      = q + (tracks.map (fun t => (t.track.duration_ms : ℚ))).sum := by
  induction tracks generalizing q with
  | nil => simp
  | cons t ts ih =>
    simp only [List.foldl_cons, List.map_cons, List.sum_cons, ih]
    ring

/-- Claim C5: the displayed duration stat is the sum of all track
`duration_ms` values divided by 3600000, rendered to one decimal place
and labelled in hours. -/
theorem C5_duration_stat (tracks : List SpotifyTrack) :
    durationStat tracks =
      toFixed1 (((tracks.map (fun t => (t.track.duration_ms : ℚ))).sum) / 3600000)
        ++ " hours" := by
  unfold durationStat duration
  rw [foldl_duration, zero_add]

/-- Claim C8 (corrected): the displayed track-count stat is
`data.tracks.total` from the playlist object; it equals the number of
rendered track rows exactly when that total equals the length of the
fetched `tracks` array, which nothing in the page enforces. -/
theorem C8_track_count_amended (data : SpotifyPlaylist) (tracks : List SpotifyTrack) :
    trackCountStat data = toString data.tracks.total ++ " tracks" ∧
    (data.tracks.total = (trackRows tracks).length ↔ data.tracks.total = tracks.length) := by
  refine ⟨rfl, ?_⟩
  simp [trackRows]

/-- Claim C8 counterexample: a playlist object reporting 3 tracks
rendered with a single fetched track shows the stat `3 tracks` while the
per-track list below has one row. -/
theorem C8_track_count_counterexample :
    cexData8.tracks.total = 3 ∧ (trackRows cexTracks8).length = 1 ∧
    cexData8.tracks.total ≠ (trackRows cexTracks8).length := by decide

/-- Claim C9: the description shown is `data.description` unchanged when
it already ends with a full stop, and `data.description` with a full stop
appended otherwise. -/
theorem C9_description_full_stop (data : SpotifyPlaylist) :
    (jsEndsWith data.description "." = true → description data = data.description) ∧
    (jsEndsWith data.description "." = false → description data = data.description ++ ".") := by
  constructor <;> intro h <;> simp [description, h]

theorem C9_description_full_stop_witness :
    description ⟨"p", "Ends here.", ⟨0⟩⟩ = "Ends here." ∧
    description ⟨"p", "No stop", ⟨0⟩⟩ = "No stop" ++ "." :=
  ⟨(C9_description_full_stop ⟨"p", "Ends here.", ⟨0⟩⟩).1 (by decide),
   (C9_description_full_stop ⟨"p", "No stop", ⟨0⟩⟩).2 (by decide)⟩

end Page

namespace Page

theorem keys_nil : keys [] = [] := rfl

theorem keys_cons (e : String × Nat) (l : List (String × Nat)) :
    keys (e :: l) = e.1 :: keys l := rfl

theorem keys_append (l1 l2 : List (String × Nat)) :
    keys (l1 ++ l2) = keys l1 ++ keys l2 := by
  simp [keys]

theorem any_key (acc : List (String × Nat)) (n : String) :
    acc.any (fun e => e.1 == n) = true ↔ n ∈ keys acc := by
  simp [keys, List.any_eq_true, List.mem_map]

theorem keys_incFirst (acc : List (String × Nat)) (n : String) :
    keys (incFirst acc n) = keys acc := by
  induction acc with
  | nil => rfl
  | cons e rest ih =>
    by_cases he : e.1 = n
    · simp [incFirst, he, keys_cons]
    · simp [incFirst, he, keys_cons, ih]

theorem countIn_nil (n : String) : countIn [] n = 0 := rfl

theorem countIn_cons (p : String × Nat) (l : List (String × Nat)) (n : String) :
    countIn (p :: l) n = (if p.1 = n then p.2 else 0) + countIn l n := by
  by_cases h : p.1 = n <;> simp [countIn, List.filter_cons, h]

theorem countIn_append (l1 l2 : List (String × Nat)) (n : String) :
    countIn (l1 ++ l2) n = countIn l1 n + countIn l2 n := by
  simp [countIn, List.filter_append]

theorem countIn_single (x : String × Nat) (n : String) :
    countIn [x] n = if x.1 = n then x.2 else 0 := by
  by_cases h : x.1 = n <;> simp [countIn, h]

theorem countIn_eq_zero {acc : List (String × Nat)} {n : String} (h : n ∉ keys acc) :
    countIn acc n = 0 := by
  induction acc with
  | nil => rfl
  | cons e rest ih =>
    rw [countIn_cons]
    have h1 : ¬(e.1 = n) := fun hh => h (by simp [keys_cons, hh])
    have h2 : n ∉ keys rest := fun hh => h (by simp [keys_cons, hh])
    simp [h1, ih h2]

theorem countIn_incFirst_self {acc : List (String × Nat)} {n : String} (h : n ∈ keys acc) :
    countIn (incFirst acc n) n = countIn acc n + 1 := by
  induction acc with
  | nil => simp [keys] at h
  | cons e rest ih =>
    by_cases he : e.1 = n
    · simp only [incFirst, if_pos he]
      rw [countIn_cons, countIn_cons]
      simp [he]
      omega
    · have h2 : n ∈ keys rest := by
        rcases (by simpa [keys_cons] using h : n = e.1 ∨ n ∈ keys rest) with h' | h'
        · exact absurd h'.symm he
        · exact h'
      simp only [incFirst, if_neg he]
      rw [countIn_cons, countIn_cons, ih h2]
      omega

theorem countIn_incFirst_other {acc : List (String × Nat)} {n m : String} (hm : m ≠ n) :
    countIn (incFirst acc n) m = countIn acc m := by
  induction acc with
  | nil => rfl
  | cons e rest ih =>
    by_cases he : e.1 = n
    · have hem : ¬(e.1 = m) := by
        rw [he]
        exact fun hh => hm hh.symm
      simp only [incFirst, if_pos he]
      rw [countIn_cons, countIn_cons]
      simp [hem]
    · simp only [incFirst, if_neg he]
      rw [countIn_cons, countIn_cons, ih]

theorem countIn_entry {l : List (String × Nat)} (hnodup : (keys l).Nodup)
    {p : String × Nat} (hp : p ∈ l) : p.2 = countIn l p.1 := by
  induction l with
  | nil => simp at hp
  | cons e rest ih =>
    rw [keys_cons] at hnodup
    rcases List.mem_cons.mp hp with h' | h'
    · subst h'
      rw [countIn_cons, if_pos rfl,
        countIn_eq_zero (List.nodup_cons.mp hnodup).1]
      omega
    · have hp1 : p.1 ∈ keys rest := List.mem_map_of_mem Prod.fst h'
      have hne : ¬(e.1 = p.1) := fun hh =>
        (List.nodup_cons.mp hnodup).1 (hh ▸ hp1)
      rw [countIn_cons, if_neg hne, ih (List.nodup_cons.mp hnodup).2 h']
      omega

theorem tally_fold_inv (as : List Artist) :
    ∀ acc : List (String × Nat), (keys acc).Nodup → "" ∉ keys acc →
      (keys (as.foldl addArtist acc)).Nodup ∧
      "" ∉ keys (as.foldl addArtist acc) ∧
      (∀ x : String, x ∈ keys (as.foldl addArtist acc) ↔
        x ∈ keys acc ∨ (x ≠ "" ∧ x ∈ as.map Artist.name)) ∧
      (∀ n : String, n ≠ "" →
        countIn (as.foldl addArtist acc) n = countIn acc n + (as.map Artist.name).count n) := by
  induction as with
  | nil =>
    intro acc h1 h2
    refine ⟨h1, h2, fun x => by simp, fun n _ => by simp⟩
  | cons a as ih =>
    intro acc h1 h2
    simp only [List.foldl_cons, List.map_cons]
    by_cases hmem : acc.any (fun e => e.1 == a.name) = true
    · have hkey : a.name ∈ keys acc := (any_key acc a.name).mp hmem
      have hne : a.name ≠ "" := fun hh => h2 (hh ▸ hkey)
      have haa : addArtist acc a = incFirst acc a.name := by
        rw [addArtist, if_pos hmem]
      rw [haa]
      obtain ⟨g1, g2, g3, g4⟩ := ih (incFirst acc a.name)
        (by rw [keys_incFirst]; exact h1) (by rw [keys_incFirst]; exact h2)
      refine ⟨g1, g2, ?_, ?_⟩
      · intro x
        rw [g3 x, keys_incFirst]
        constructor
        · rintro (hx | hx)
          · exact Or.inl hx
          · exact Or.inr ⟨hx.1, List.mem_cons_of_mem _ hx.2⟩
        · rintro (hx | ⟨hx1, hx2⟩)
          · exact Or.inl hx
          · rcases List.mem_cons.mp hx2 with h' | h'
            · exact Or.inl (by rw [h']; exact hkey)
            · exact Or.inr ⟨hx1, h'⟩
      · intro n hn
        rw [g4 n hn]
        by_cases hna : n = a.name
        · subst hna
          rw [countIn_incFirst_self hkey, List.count_cons_self]
          omega
        · rw [countIn_incFirst_other hna, List.count_cons_of_ne hna]
    · by_cases hblank : a.name = ""
      · have haa : addArtist acc a = acc := by
          rw [addArtist, if_neg hmem, if_neg (fun hc => hc hblank)]
        rw [haa]
        obtain ⟨g1, g2, g3, g4⟩ := ih acc h1 h2
        refine ⟨g1, g2, ?_, ?_⟩
        · intro x
          rw [g3 x]
          constructor
          · rintro (hx | hx)
            · exact Or.inl hx
            · exact Or.inr ⟨hx.1, List.mem_cons_of_mem _ hx.2⟩
          · rintro (hx | ⟨hx1, hx2⟩)
            · exact Or.inl hx
            · rcases List.mem_cons.mp hx2 with h' | h'
              · exact absurd (h'.trans hblank) hx1
              · exact Or.inr ⟨hx1, h'⟩
        · intro n hn
          rw [g4 n hn, List.count_cons_of_ne (fun hh => hn (hh.trans hblank))]
      · have haa : addArtist acc a = acc ++ [(a.name, 1)] := by
          rw [addArtist, if_neg hmem, if_pos hblank]
        have hnotin : a.name ∉ keys acc := fun hk => hmem ((any_key acc a.name).mpr hk)
        rw [haa]
        have hk1 : keys [((a.name : String), (1 : Nat))] = [a.name] := rfl
        have hnodup : (keys (acc ++ [(a.name, 1)])).Nodup := by
          rw [keys_append, hk1]
          refine List.Nodup.append h1 (List.nodup_singleton _) ?_
          intro x hx hx2
          exact hnotin ((List.mem_singleton.mp hx2) ▸ hx)
        have hblank2 : "" ∉ keys (acc ++ [(a.name, 1)]) := by
          rw [keys_append, hk1]
          intro hc
          rcases List.mem_append.mp hc with hc1 | hc1
          · exact h2 hc1
          · exact hblank (List.mem_singleton.mp hc1).symm
        obtain ⟨g1, g2, g3, g4⟩ := ih (acc ++ [(a.name, 1)]) hnodup hblank2
        refine ⟨g1, g2, ?_, ?_⟩
        · intro x
          rw [g3 x, keys_append, hk1]
          simp only [List.mem_append, List.mem_cons, List.not_mem_nil, or_false]
          constructor
          · rintro ((hx | hx) | hx)
            · exact Or.inl hx
            · exact Or.inr ⟨by rw [hx]; exact hblank, Or.inl hx⟩
            · exact Or.inr ⟨hx.1, Or.inr hx.2⟩
          · rintro (hx | ⟨hx1, hx2 | hx2⟩)
            · exact Or.inl (Or.inl hx)
            · exact Or.inl (Or.inr hx2)
            · exact Or.inr ⟨hx1, hx2⟩
        · intro n hn
          rw [g4 n hn, countIn_append, countIn_single]
          by_cases hna : n = a.name
          · rw [if_pos hna.symm, List.count_cons, if_pos (by simp [hna])]
            omega
          · rw [if_neg (fun hh => hna hh.symm), List.count_cons_of_ne hna]
            omega

theorem artistsTally_eq (tracks : List SpotifyTrack) :
    artistsTally tracks = (allArtists tracks).foldl addArtist [] := by
  unfold artistsTally allArtists
  rw [List.foldl_flatten, List.foldl_map]

theorem tally_inv (tracks : List SpotifyTrack) :
    (keys (artistsTally tracks)).Nodup ∧
    "" ∉ keys (artistsTally tracks) ∧
    (∀ x : String, x ∈ keys (artistsTally tracks) ↔
      x ≠ "" ∧ x ∈ allArtistNames tracks) ∧
    (∀ n : String, n ≠ "" → countIn (artistsTally tracks) n = appearances tracks n) := by
  have h := tally_fold_inv (allArtists tracks) [] (by simp [keys]) (by simp [keys])
  rw [← artistsTally_eq] at h
  obtain ⟨h1, h2, h3, h4⟩ := h
  refine ⟨h1, h2, fun x => ?_, fun n hn => ?_⟩
  · rw [h3 x]
    simp [keys, allArtistNames]
  · rw [h4 n hn, countIn_nil]
    simp [appearances, allArtistNames]

end Page

namespace Page

/-- Claim C6 (corrected): the displayed artist-count stat equals the
number of distinct NON-EMPTY artist names across the artist lists of all
tracks; artists whose name is the empty string are skipped by the tally
loop (`else if (artist.name)`) and therefore never counted. -/
theorem C6_unique_artists_amended (tracks : List SpotifyTrack) :
    uniqueArtists tracks =
      ((allArtistNames tracks).filter (fun n => n ≠ "")).dedup.length := by
  obtain ⟨h1, h2, h3, _⟩ := tally_inv tracks
  unfold uniqueArtists
  have hk : (artistsTally tracks).map Prod.fst = keys (artistsTally tracks) := rfl
  rw [hk, List.Nodup.dedup h1]
  have hfin : (keys (artistsTally tracks)).toFinset =
      ((allArtistNames tracks).filter (fun n => n ≠ "")).toFinset := by
    ext x
    simp only [List.mem_toFinset, List.mem_filter, h3 x, decide_eq_true_eq]
    exact ⟨fun ⟨u, v⟩ => ⟨v, u⟩, fun ⟨u, v⟩ => ⟨v, u⟩⟩
  calc (keys (artistsTally tracks)).length
      = (keys (artistsTally tracks)).toFinset.card :=
        (List.toFinset_card_of_nodup h1).symm
    _ = ((allArtistNames tracks).filter (fun n => n ≠ "")).toFinset.card := by rw [hfin]
    _ = ((allArtistNames tracks).filter (fun n => n ≠ "")).dedup.length :=
        List.card_toFinset _

/-- Claim C6 counterexample: with one track whose only artist name is the
empty string, the page displays an artist count of 0 although one
distinct artist name occurs across the tracks. -/
theorem C6_unique_artists_counterexample :
    uniqueArtists cexTracks6 = 0 ∧ (allArtistNames cexTracks6).dedup.length = 1 := by
  decide

/-- Claim C7 (corrected): the `Featuring` sentence lists at most 5
pairwise-distinct names drawn from the non-empty artist names occurring
across the tracks (so the empty artist name is never listed, even when
it has the most occurrences); the listed names appear in non-increasing
order of (track, artist) occurrence count, and every listed name has at
least as many occurrences as every non-empty name that occurs but is
not listed. -/
theorem C7_top_artists_amended (tracks : List SpotifyTrack) :
    (topArtists tracks).length ≤ 5 ∧
    (topArtists tracks).Nodup ∧
    (∀ m ∈ topArtists tracks, m ≠ "" ∧ m ∈ allArtistNames tracks) ∧
    List.Pairwise
      (fun m n => appearances tracks n ≤ appearances tracks m) (topArtists tracks) ∧
    (∀ n : String, n ≠ "" → n ∈ allArtistNames tracks → n ∉ topArtists tracks →
      ∀ m ∈ topArtists tracks, appearances tracks n ≤ appearances tracks m) := by
  obtain ⟨h1, h2, h3, _⟩ := tally_inv tracks
  have htop : topArtists tracks =
      ((List.insertionSort byCountDesc (artistsTally tracks)).take 5).map Prod.fst := rfl
  have hperm : (List.insertionSort byCountDesc (artistsTally tracks)).Perm
      (artistsTally tracks) := List.perm_insertionSort _ _
  have hsorted : List.Pairwise byCountDesc
      (List.insertionSort byCountDesc (artistsTally tracks)) :=
    List.sorted_insertionSort byCountDesc (artistsTally tracks)
  have hcount : ∀ p ∈ List.insertionSort byCountDesc (artistsTally tracks),
      p.2 = appearances tracks p.1 := by
    intro p hp
    have hpl : p ∈ artistsTally tracks := hperm.mem_iff.mp hp
    have hp1 : p.1 ∈ keys (artistsTally tracks) := List.mem_map_of_mem Prod.fst hpl
    have hne : p.1 ≠ "" := ((h3 p.1).mp hp1).1
    obtain ⟨_, _, _, h4⟩ := tally_inv tracks
    rw [countIn_entry h1 hpl, h4 p.1 hne]
  refine ⟨?_, ?_, ?_, ?_, ?_⟩
  · rw [htop, List.length_map, List.length_take]
    exact min_le_left _ _
  · have hsmap : ((List.insertionSort byCountDesc (artistsTally tracks)).map
        Prod.fst).Nodup :=
      ((hperm.map Prod.fst).nodup_iff).mpr h1
    rw [htop]
    exact List.Nodup.sublist ((List.take_sublist 5 _).map Prod.fst) hsmap
  · intro m hm
    rw [htop] at hm
    obtain ⟨q, hq, hqm⟩ := List.mem_map.mp hm
    have hqs : q ∈ List.insertionSort byCountDesc (artistsTally tracks) :=
      (List.take_sublist 5 _).subset hq
    have hql : q ∈ artistsTally tracks := hperm.mem_iff.mp hqs
    have hq1 : q.1 ∈ keys (artistsTally tracks) := List.mem_map_of_mem Prod.fst hql
    rw [← hqm]
    exact (h3 q.1).mp hq1
  · have htake : List.Pairwise byCountDesc
        ((List.insertionSort byCountDesc (artistsTally tracks)).take 5) :=
      List.Pairwise.sublist (List.take_sublist 5 _) hsorted
    have himp : List.Pairwise
        (fun a b : String × Nat =>
          appearances tracks b.1 ≤ appearances tracks a.1)
        ((List.insertionSort byCountDesc (artistsTally tracks)).take 5) := by
      refine List.Pairwise.imp_of_mem ?_ htake
      intro a b ha hb hab
      rw [← hcount a ((List.take_sublist 5 _).subset ha),
        ← hcount b ((List.take_sublist 5 _).subset hb)]
      exact hab
    rw [htop, List.pairwise_map]
    exact himp
  · intro n hn hmem hnot m hm
    have hkeys : n ∈ (artistsTally tracks).map Prod.fst := (h3 n).mpr ⟨hn, hmem⟩
    obtain ⟨p, hpl, hpn⟩ := List.mem_map.mp hkeys
    have hps : p ∈ List.insertionSort byCountDesc (artistsTally tracks) :=
      hperm.mem_iff.mpr hpl
    have hsplit : (List.insertionSort byCountDesc (artistsTally tracks)).take 5 ++
        (List.insertionSort byCountDesc (artistsTally tracks)).drop 5 =
        List.insertionSort byCountDesc (artistsTally tracks) :=
      List.take_append_drop 5 _
    have hpdrop : p ∈ (List.insertionSort byCountDesc (artistsTally tracks)).drop 5 := by
      rcases List.mem_append.mp (by rw [hsplit]; exact hps) with h' | h'
      · exact absurd (htop ▸ (hpn ▸ List.mem_map_of_mem Prod.fst h')) hnot
      · exact h'
    rw [htop] at hm
    obtain ⟨q, hq, hqm⟩ := List.mem_map.mp hm
    have hpair : List.Pairwise byCountDesc
        ((List.insertionSort byCountDesc (artistsTally tracks)).take 5 ++
         (List.insertionSort byCountDesc (artistsTally tracks)).drop 5) := by
      rw [hsplit]
      exact hsorted
    have hcross := (List.pairwise_append.mp hpair).2.2 q hq p hpdrop
    rw [← hpn, ← hqm, ← hcount p hps,
      ← hcount q ((List.take_sublist 5 _).subset hq)]
    exact hcross

theorem C7_top_artists_amended_witness :
    appearances witTracks7 "F" ≤ appearances witTracks7 "A" ∧
    ("A" ≠ "" ∧ "A" ∈ allArtistNames witTracks7) :=
  ⟨(C7_top_artists_amended witTracks7).2.2.2.2 "F" (by decide) (by decide) (by decide)
     "A" (by decide),
   (C7_top_artists_amended witTracks7).2.2.1 "A" (by decide)⟩

/-- Claim C7 counterexample: with the empty artist name occurring twice
and the name `A` once, the sentence lists `A` (and has room for more)
while the unlisted empty name has strictly more track appearances, so
the listed names are not the names with the greatest number of
appearances. -/
theorem C7_top_artists_counterexample :
    topArtists cexTracks7 = ["A"] ∧ (topArtists cexTracks7).length < 5 ∧
    "" ∉ topArtists cexTracks7 ∧
    appearances cexTracks7 "A" < appearances cexTracks7 "" := by
  decide

end Page
